import Mathlib

/-!
Shallow embedding of the EttaWallet node lifecycle coordinator and wallet
state store (src/ldk/index.ts and src/state/models/lightning.ts), with
theorems settling the specification claims about them.

JavaScript semantics that matter for faithfulness are modelled explicitly:
  - a JS object is always truthy, so a test of the form `!result` on a
    Result instance is always false;
  - object spread copies only the keys present on the source object, so an
    absent optional field leaves the target field unchanged;
  - `array.filter` keeps elements in order;
  - an exception thrown inside a store action aborts the whole state
    transaction, leaving the state unchanged.
-/

namespace EttaWallet

/-- Success or failure result, as in src/utils/result. -/
inductive Result (α : Type) where
  | ok (value : α)
  | err (error : String)
deriving DecidableEq

/-- Whether a result is an error. -/
def Result.isErr {α : Type} : Result α → Bool
  | .ok _ => false
  | .err _ => true

/-- Whether a result is a success. -/
def Result.isOk {α : Type} : Result α → Bool
  | .ok _ => true
  | .err _ => false

/-- A JS value test `!r` on a Result instance: a Result is an object and an
object is never falsy in JavaScript, whatever it holds. -/
def Result.jsFalsy {α : Type} (_ : Result α) : Bool := false

/-- JS object-spread semantics for one optional field: a key present on the
source object overwrites the target, an absent key leaves it unchanged. -/
def jsSpreadOpt {α : Type} (new old : Option α) : Option α :=
  match new with
  | some v => some v
  | none => old

/-- Lightning invoice, the fields of TInvoice the store logic reads
(payment_hash, payee_pub_key, timestamp, expiry_time, encoded request). -/
structure TInvoice where
  payment_hash : String
  payee_pub_key : String
  timestamp : Nat
  expiry_time : Nat
  to_str : String
deriving DecidableEq

/-- Direction tag of a payment. -/
inductive EPaymentType where
  | sent
  | received
deriving DecidableEq

/-- A payment record: the invoice it settles plus a direction tag. The
`type` field is optional in the update payload shape.
Modelled from the spec: src/utils/types.ts is not part of the sources; per
the data model a Payment holds a reference to its Invoice and a direction
tag, and is mutated later only to attach auxiliary metadata, so the
direction slot of an update payload may be absent. -/
structure TLightningPayment where
  invoice : TInvoice
  type : Option EPaymentType
deriving DecidableEq

/-- Contact identifier sub-record: unique id, label, address string. -/
structure TIdentifier where
  id : String
  label : String
  address : String
deriving DecidableEq

/-- Address-book contact. `items` is not a declared field of TContact: the
deleteContactAddress action writes a stray `items` property on the contact
objects at runtime, so the embedding carries it as an extra optional field
(it is never read anywhere). -/
structure TContact where
  id : String
  «alias» : String
  date_added : Option Nat
  identifiers : Option (List TIdentifier)
  items : Option (List TIdentifier)
deriving DecidableEq

/-- Channel metadata as reported by the node engine (opaque to the store;
only merged by id). -/
structure TChannel where
  channel_id : String
  balance_sat : Nat
deriving DecidableEq

/-- LDK and c-bindings version strings. -/
structure TLightningNodeVersion where
  ldk : String
  c_bindings : String
deriving DecidableEq

/-- The store fields of the lightning model the claims are about.
Channels form a JS object keyed by channel id, modelled as a function;
payments form a JS object keyed by payment hash, modelled as an
association list so that Object.values can be iterated in order. -/
structure LightningState where
  nodeId : Option String
  ldkVersion : TLightningNodeVersion
  channels : String → Option TChannel
  openChannelIds : List String
  invoices : List TInvoice
  payments : List (String × TLightningPayment)
  contacts : List TContact

/-- Insertion into a JS object map: an existing key keeps its position and
gets the new value, a new key is appended. -/
def objInsert {α : Type} : List (String × α) → String → α → List (String × α)
  | [], k, v => [(k, v)]
  | (k₀, v₀) :: rest, k, v =>
    if k₀ = k then (k₀, v) :: rest else (k₀, v₀) :: objInsert rest k v

/-- Lookup in a JS object map. -/
def objLookup {α : Type} : List (String × α) → String → Option α
  | [], _ => none
  | (k₀, v₀) :: rest, k => if k₀ = k then some v₀ else objLookup rest k

/-- removeExpiredInvoices (lightning.ts, lines 131 to 138): keep only the
invoices whose timestamp plus expiry exceeds the current epoch seconds.
The source computes nowInSecs from the clock inside the action; it is
passed here as a parameter. -/
def removeExpiredInvoices (invoices : List TInvoice) (nowInSecs : Nat) : List TInvoice :=
  invoices.filter (fun invoice => nowInSecs < invoice.timestamp + invoice.expiry_time)

/-- addPayment (lightning.ts, lines 155 to 167): store a payment record
under the payload invoice payment hash; the direction is received exactly
when the invoice payee public key strictly equals the (possibly null)
node id of the state, else sent. -/
def addPayment (state : LightningState) (payload : TLightningPayment) : LightningState :=
  { state with
    payments :=
      objInsert state.payments payload.invoice.payment_hash
        { invoice := payload.invoice
          type :=
            some
              (if some payload.invoice.payee_pub_key = state.nodeId then
                EPaymentType.received
              else EPaymentType.sent) } }

/-- Object.assign(payment, payload): every key present on the payload
overwrites the target payment; the optional `type` key is copied only when
present. -/
def assignPayment (payment payload : TLightningPayment) : TLightningPayment :=
  { invoice := payload.invoice
    type := jsSpreadOpt payload.type payment.type }

/-- The Object.values(...).filter(...)[0] step of updatePayment followed by
the in-place Object.assign: only the first payment whose stored invoice
hash matches the payload invoice hash is mutated. -/
def updatePaymentValues :
    List (String × TLightningPayment) → TLightningPayment → List (String × TLightningPayment)
  | [], _ => []
  | (k, p) :: rest, payload =>
    if p.invoice.payment_hash = payload.invoice.payment_hash then
      (k, assignPayment p payload) :: rest
    else (k, p) :: updatePaymentValues rest payload

/-- updatePayment (lightning.ts, lines 168 to 180). -/
def updatePayment (state : LightningState) (payload : TLightningPayment) : LightningState :=
  { state with payments := updatePaymentValues state.payments payload }

/-- Payload of updateChannels: a Partial of the model, of which the action
reads the optional channels map and the optional open-channel id list. -/
structure ChannelsPayload where
  channels : Option (String → Option TChannel)
  openChannelIds : Option (List String)

/-- updateChannels (lightning.ts, lines 139 to 148): shallow-merge the
channel records by id (payload wins), then append the payload open-channel
ids that are not already tracked. -/
def updateChannels (state : LightningState) (payload : ChannelsPayload) : LightningState :=
  let payloadChannels := payload.channels.getD (fun _ => none)
  let newChannelIds := payload.openChannelIds.getD []
  let uniqueIds := newChannelIds.filter (fun cid => !(state.openChannelIds.contains cid))
  { state with
    channels := fun k =>
      match payloadChannels k with
      | some v => some v
      | none => state.channels k
    openChannelIds := state.openChannelIds ++ uniqueIds }

/-- The merge step of updateContact on one matching contact: spread the
existing contact, then the payload (present keys win), then set
identifiers to the append-merge of the two identifier lists, the ternary
normalising an absent list to the empty list. -/
def mergeContact (contact updatedContact : TContact) : TContact :=
  let mergedIdentifiers :=
    match updatedContact.identifiers with
    | some newIds => (contact.identifiers.getD []) ++ newIds
    | none => contact.identifiers.getD []
  { id := updatedContact.id
    «alias» := updatedContact.«alias»
    date_added := jsSpreadOpt updatedContact.date_added contact.date_added
    identifiers := some mergedIdentifiers
    items := jsSpreadOpt updatedContact.items contact.items }

/-- updateContact (lightning.ts, lines 187 to 205). The source guards on
`contactId && updatedContact`: updatedContact is a non-null object, hence
always truthy, while an empty-string contactId is falsy and makes the
whole action a no-op. -/
def updateContact (contacts : List TContact) (contactId : String)
    (updatedContact : TContact) : List TContact :=
  if contactId = "" then contacts
  else
    contacts.map fun contact =>
      if contact.id = contactId then mergeContact contact updatedContact else contact

/-- addContact (lightning.ts, lines 184 to 186): push. -/
def addContact (contacts : List TContact) (payload : TContact) : List TContact :=
  contacts ++ [payload]

/-- deleteContact (lightning.ts, lines 206 to 211): findIndex plus splice,
so only the first contact with the given id is removed. -/
def deleteContact : List TContact → String → List TContact
  | [], _ => []
  | contact :: rest, payload =>
    if contact.id = payload then rest else contact :: deleteContact rest payload

/-- First pass of deleteContactAddress: filter the identifier with the
given addressId out of the contact named contactId. -/
def deleteAddressPass1 (contacts : List TContact) (contactId addressId : String) :
    List TContact :=
  contacts.map fun contact =>
    if contact.id = contactId then
      { contact with
        identifiers :=
          some ((contact.identifiers.getD []).filter fun identity => identity.id ≠ addressId) }
    else contact

/-- Second pass of deleteContactAddress: for every contact, compute the
filtered identifier list but store it under the stray `items` key, leaving
`identifiers` untouched. -/
def deleteAddressPass2 (contacts : List TContact) (addressId : String) : List TContact :=
  contacts.map fun contact =>
    { contact with
      items :=
        some ((contact.identifiers.getD []).filter fun identity => identity.id ≠ addressId) }

/-- deleteContactAddress (lightning.ts, lines 212 to 230). Both passes
dereference `contact.identifiers!`; when any contact has no identifiers
list the second pass (which visits every contact) throws a TypeError, the
store transaction is discarded and the state is unchanged, which the
guard below models. -/
def deleteContactAddress (contacts : List TContact) (contactId addressId : String) :
    List TContact :=
  if contacts.all (fun contact => contact.identifiers.isSome) then
    deleteAddressPass2 (deleteAddressPass1 contacts contactId addressId) addressId
  else contacts

/-- Observable outcome of a keepLdkSynced run: number of sync attempts
made, the LDKIsStayingSynced flag afterwards, and whether the loop exited
through its error branch within the observed iterations. -/
structure KeepSyncedOutcome where
  attempts : Nat
  stayingSynced : Bool
  exited : Bool
deriving DecidableEq

/-- The while loop of keepLdkSynced (ldk/index.ts, lines 138 to 148): each
iteration awaits refreshLdk, then tests `!syncRes`; only that branch sets
the error, clears LDKIsStayingSynced and breaks. `results i` is the Result
returned by the i-th refreshLdk call; `fuel` bounds how many iterations
are observed (the source loop is unbounded). -/
def keepSyncedLoop (results : Nat → Result String) : Nat → Nat → KeepSyncedOutcome
  | 0, i => ⟨i, true, false⟩
  | fuel + 1, i =>
    if (results i).jsFalsy then ⟨i + 1, false, true⟩
    else keepSyncedLoop results fuel (i + 1)

/-- keepLdkSynced (ldk/index.ts, lines 121 to 149): if LDKIsStayingSynced
is already set the call returns at once (zero sync attempts), otherwise it
sets the flag and enters the loop. -/
def keepLdkSynced (stayingSynced : Bool) (results : Nat → Result String)
    (fuel : Nat) : KeepSyncedOutcome :=
  if stayingSynced then ⟨0, stayingSynced, false⟩
  else keepSyncedLoop results fuel 0

/-- A watched output supplied by the node engine: script pubkey plus the
transaction id it came from. -/
structure TWatchTx where
  script_pubkey : String
  txid : String
deriving DecidableEq

/-- One entry of a script history returned by the chain data gateway. -/
structure THistoryEntry where
  txid : String
  height : Nat
deriving DecidableEq

/-- Transaction data returned by _getTransactionData. -/
structure TTxData where
  header : String
  height : Nat
  transaction : String
deriving DecidableEq

/-- One setTxConfirmed call as issued by checkWatchTxs: header and height
from the fetched transaction data, the transaction hex, and the hardcoded
position 0. -/
structure TConfirmedCall where
  header : String
  height : Nat
  transaction : String
  pos : Nat
deriving DecidableEq

/-- The setTxConfirmed payload checkWatchTxs builds for a given txid. -/
def mkConfirmedCall (txd : String → TTxData) (txid : String) : TConfirmedCall :=
  { header := (txd txid).header
    height := (txd txid).height
    transaction := (txd txid).transaction
    pos := 0 }

/-- Inner loop of checkWatchTxs over one script history: the first entry
whose txid is not among the watch-list transaction ids. -/
def firstUnseen (watchTransactionIds : List String) : List THistoryEntry → Option THistoryEntry
  | [] => none
  | entry :: rest =>
    if entry.txid ∈ watchTransactionIds then firstUnseen watchTransactionIds rest
    else some entry

/-- Outer loop of checkWatchTxs: walk the watch list in order, skip script
pubkeys already checked in this pass, scan each new script history; on the
first unseen txid issue one setTxConfirmed call and return true, else mark
the script checked and continue. -/
def checkWatchTxsLoop (watchTransactionIds : List String)
    (hist : String → List THistoryEntry) (txd : String → TTxData) :
    List TWatchTx → List String → Bool × List TConfirmedCall
  | [], _ => (false, [])
  | watchTx :: rest, checkedScriptPubKeys =>
    if watchTx.script_pubkey ∈ checkedScriptPubKeys then
      checkWatchTxsLoop watchTransactionIds hist txd rest checkedScriptPubKeys
    else
      match firstUnseen watchTransactionIds (hist watchTx.script_pubkey) with
      | some entry => (true, [mkConfirmedCall txd entry.txid])
      | none =>
        checkWatchTxsLoop watchTransactionIds hist txd rest
          (checkedScriptPubKeys ++ [watchTx.script_pubkey])

/-- checkWatchTxs (ldk/index.ts, lines 388 to 411). `hist` is the chain
data gateway script-history query, `txd` the transaction-data query; the
returned list holds the setTxConfirmed calls issued to the node engine. -/
def checkWatchTxs (watchTxs : List TWatchTx) (hist : String → List THistoryEntry)
    (txd : String → TTxData) : Bool × List TConfirmedCall :=
  checkWatchTxsLoop (watchTxs.map (fun tx => tx.txid)) hist txd watchTxs []

/-- getPendingInvoice (ldk/index.ts, lines 418 to 438): filter the stored
invoices by payment hash and return the first match, or an error. -/
def getPendingInvoice (invoices : List TInvoice) (paymentHash : String) : Result TInvoice :=
  match invoices.filter (fun inv => inv.payment_hash = paymentHash) with
  | [] => .err "Unable to find any pending invoices."
  | invoice :: _ => .ok invoice

/-- handlePaymentSubscription (ldk/index.ts, lines 440 to 468): look up the
pending invoice by the payment hash carried by the event; when found, add
a payment record and await refreshLdk once; when not found, do nothing.
The second component counts the refreshLdk (sync) calls triggered.
The addPayment helper called here lives in src/utils/lightning/helpers,
which is not part of the sources; modelled from the spec: it dispatches
the store addPayment transition with the found invoice (direction is then
inferred by the store action itself). -/
def handlePaymentSubscription (state : LightningState) (paymentHash : String) :
    LightningState × Nat :=
  match getPendingInvoice state.invoices paymentHash with
  | .ok invoice => (addPayment state { invoice := invoice, type := none }, 1)
  | .err _ => (state, 0)

/-- The outcomes of the external steps setupLdk performs, in source order:
loading the account material, configuring the storage path, starting the
lightning manager, querying the node id, plus the version the helper
updateLdkVersion would record. The result of the initial resetLdk call is
not inspected by the source, so it does not appear here. -/
structure SetupDeps where
  accountRes : Result String
  storageRes : Result String
  lmStartRes : Result String
  nodeIdRes : Result String
  version : TLightningNodeVersion

/-- What a setupLdk call produced: its Result, the store state afterwards,
whether lm.start was ever invoked, and how many refreshLdk passes ran. -/
structure SetupOutcome where
  res : Result String
  state : LightningState
  lmStartCalled : Bool
  syncCalls : Nat

/-- setupLdk (ldk/index.ts, lines 190 to 290): reset (result ignored),
load the account material (abort on error before the engine is touched),
set the storage path, start the lightning manager, query the node id,
record node id and version into the store, optionally run one refresh,
subscribe to events and return the node id banner. -/
def setupLdk (deps : SetupDeps) (shouldRefreshLdk : Bool) (state : LightningState) :
    SetupOutcome :=
  match deps.accountRes with
  | .err m => ⟨.err m, state, false, 0⟩
  | .ok _ =>
    match deps.storageRes with
    | .err m => ⟨.err m, state, false, 0⟩
    | .ok _ =>
      match deps.lmStartRes with
      | .err m => ⟨.err ("@lmStart: " ++ m), state, true, 0⟩
      | .ok _ =>
        match deps.nodeIdRes with
        | .err m => ⟨.err m, state, true, 0⟩
        | .ok nodeId =>
          ⟨.ok ("LDK NodeID: " ++ nodeId),
            { state with nodeId := some nodeId, ldkVersion := deps.version },
            true,
            if shouldRefreshLdk then 1 else 0⟩

/-- The four contact transitions of the store. -/
inductive ContactOp where
  | add (payload : TContact)
  | update (contactId : String) (updatedContact : TContact)
  | delete (payload : String)
  | deleteAddress (contactId addressId : String)

/-- Apply one contact transition to the contacts list. -/
def applyContactOp (contacts : List TContact) : ContactOp → List TContact
  | .add payload => addContact contacts payload
  | .update contactId updatedContact => updateContact contacts contactId updatedContact
  | .delete payload => deleteContact contacts payload
  | .deleteAddress contactId addressId => deleteContactAddress contacts contactId addressId

/-- Apply a sequence of contact transitions starting from the initial
(empty) contacts list. -/
def applyContactOps (ops : List ContactOp) : List TContact :=
  ops.foldl applyContactOp []

/-- The per-contact identifier ids. -/
def identifierIds (contact : TContact) : List String :=
  (contact.identifiers.getD []).map (fun identity => identity.id)

/-- The claimed invariant: within each contact, identifier ids are
pairwise distinct. -/
def contactInv (contacts : List TContact) : Prop :=
  ∀ contact ∈ contacts, (identifierIds contact).Nodup

instance (contacts : List TContact) : Decidable (contactInv contacts) := by
  unfold contactInv
  infer_instance

/-- Well-formedness of a contact transition payload relative to the state
it is applied to: addContact payloads carry pairwise distinct identifier
ids; updateContact payloads carry pairwise distinct identifier ids that
are also fresh for the updated contact. Deletions are unconstrained. -/
def contactOpWF (contacts : List TContact) : ContactOp → Prop
  | .add payload => (identifierIds payload).Nodup
  | .update contactId updatedContact =>
    (identifierIds updatedContact).Nodup ∧
      ∀ contact ∈ contacts, contact.id = contactId →
        ∀ a ∈ identifierIds contact, a ∉ identifierIds updatedContact
  | .delete _ => True
  | .deleteAddress _ _ => True

/-- States reachable from the initial contacts list through well-formed
contact transitions. -/
inductive ReachableWF : List TContact → Prop
  | init : ReachableWF []
  | step {contacts : List TContact} {op : ContactOp} :
      ReachableWF contacts → contactOpWF contacts op → ReachableWF (applyContactOp contacts op)

/-! Concrete fixtures used by witnesses and counterexamples. -/

/-- The invoice of the §8 scenario. -/
def exInvoiceA : TInvoice :=
  { payment_hash := "abc", payee_pub_key := "node123", timestamp := 90
    expiry_time := 3600, to_str := "lnbcA" }

/-- A second invoice, already expired at time 100 and payable elsewhere. -/
def exInvoiceB : TInvoice :=
  { payment_hash := "def", payee_pub_key := "node999", timestamp := 10
    expiry_time := 5, to_str := "lnbcB" }

/-- A store state with node id node123 and the scenario invoice. -/
def exState : LightningState :=
  { nodeId := some "node123"
    ldkVersion := { ldk := "0.0.116", c_bindings := "0.0.116" }
    channels := fun _ => none
    openChannelIds := []
    invoices := [exInvoiceA, exInvoiceB]
    payments := []
    contacts := [] }

/-- A store state with nothing in it. -/
def exState0 : LightningState :=
  { nodeId := none
    ldkVersion := { ldk := "", c_bindings := "" }
    channels := fun _ => none
    openChannelIds := []
    invoices := []
    payments := []
    contacts := [] }

/-- Identifier A of the append-merge claim. -/
def identA : TIdentifier := { id := "idA", label := "labelA", address := "addrA" }

/-- Identifier B of the append-merge claim. -/
def identB : TIdentifier := { id := "idB", label := "labelB", address := "addrB" }

/-- A contact whose id is the empty string. -/
def emptyIdContact : TContact :=
  { id := "", «alias» := "alice", date_added := none, identifiers := some [identA]
    items := none }

/-- An update payload for the empty-string contact id carrying [B]. -/
def emptyIdUpdate : TContact :=
  { id := "", «alias» := "alice", date_added := none, identifiers := some [identB]
    items := none }

/-- A contact with a nonempty id holding [A]. -/
def contactCA : TContact :=
  { id := "c1", «alias» := "alice", date_added := some 7, identifiers := some [identA]
    items := none }

/-- An update payload for contact c1 carrying [B]. -/
def contactCAUpdate : TContact :=
  { id := "c1", «alias» := "alicia", date_added := none, identifiers := some [identB]
    items := none }

/-- A channels payload whose open-channel id list repeats one id. -/
def dupChannelsPayload : ChannelsPayload :=
  { channels := none, openChannelIds := some ["chanA", "chanA"] }

/-- A duplicate-free channels payload. -/
def okChannelsPayload : ChannelsPayload :=
  { channels := none, openChannelIds := some ["chanA", "chanB"] }

/-- A contact transition sequence whose update re-appends an identifier id
already present on the contact. -/
def dupIdentifierOps : List ContactOp :=
  [ContactOp.add contactCA,
   ContactOp.update "c1"
     { id := "c1", «alias» := "alice", date_added := none, identifiers := some [identA]
       items := none }]

/-- Contact c1 holding the shared identifier id addr1. -/
def contactWithAddr1 : TContact :=
  { id := "c1", «alias» := "alice", date_added := none
    identifiers := some [{ id := "addr1", label := "ln", address := "x" }]
    items := none }

/-- Contact c2 holding an identifier with the same id addr1. -/
def otherContactWithAddr1 : TContact :=
  { id := "c2", «alias» := "bob", date_added := none
    identifiers := some [{ id := "addr1", label := "ln", address := "y" }]
    items := none }

/-- Sync results whose third attempt is the first failure. -/
def failingSyncResults : Nat → Result String := fun i =>
  if i < 2 then .ok "" else .err "Could not refresh LDK."

/-- The watch list of the §8 scenario: two scripts. -/
def exWatchTxs : List TWatchTx :=
  [{ script_pubkey := "spk1", txid := "t1" }, { script_pubkey := "spk2", txid := "t2" }]

/-- Script histories for the scenario: only the second script has a
transaction id outside the watch list. -/
def exHist : String → List THistoryEntry := fun spk =>
  if spk = "spk1" then [{ txid := "t1", height := 5 }]
  else if spk = "spk2" then [{ txid := "t2", height := 6 }, { txid := "t9", height := 7 }]
  else []

/-- Transaction data for the scenario. -/
def exTxd : String → TTxData := fun txid =>
  { header := "hdr" ++ txid, height := 9, transaction := "raw" ++ txid }

/-- Setup step outcomes where loading the account material fails. -/
def exFailingSetupDeps : SetupDeps :=
  { accountRes := .err "Unable to retrieve LDK seed from storage."
    storageRes := .ok "/data"
    lmStartRes := .ok ""
    nodeIdRes := .ok "node123"
    version := { ldk := "0.0.116", c_bindings := "0.0.116" } }

/-! Helper lemmas. -/

/-- Looking up the key just inserted into a JS object map yields the
inserted value. -/
theorem objLookup_objInsert {α : Type} (m : List (String × α)) (k : String) (v : α) :
    objLookup (objInsert m k v) k = some v := by
  induction m with
  | nil => simp [objInsert, objLookup]
  | cons kv rest ih =>
    obtain ⟨k₀, v₀⟩ := kv
    by_cases h : k₀ = k
    · simp [objInsert, objLookup, h]
    · simp [objInsert, objLookup, h, ih]

/-! Claim C6. -/

/-- C6: after pruning at time now, every retained invoice satisfies
timestamp + expiry > now, and every invoice satisfying
timestamp + expiry > now is retained. -/
theorem c6_removeExpiredInvoices_retention (invoices : List TInvoice) (now : Nat) :
    (∀ inv ∈ removeExpiredInvoices invoices now, now < inv.timestamp + inv.expiry_time) ∧
    (∀ inv ∈ invoices, now < inv.timestamp + inv.expiry_time →
      inv ∈ removeExpiredInvoices invoices now) := by
  constructor
  · intro inv h
    have h' := List.mem_filter.mp h
    simpa using h'.2
  · intro inv hmem hlt
    exact List.mem_filter.mpr ⟨hmem, by simpa using hlt⟩

/-- Witness for C6 at a concrete invoice list and time 100: the live
invoice is retained. -/
theorem c6_witness :
    exInvoiceA ∈ removeExpiredInvoices [exInvoiceA, exInvoiceB] 100 :=
  (c6_removeExpiredInvoices_retention [exInvoiceA, exInvoiceB] 100).2 exInvoiceA
    (by decide) (by decide)

/-! Claim C5. -/

/-- C5: addPayment stores under the payload invoice payment hash a record
whose direction is received exactly when the invoice payee public key
equals the current node id and sent otherwise; updatePayment carrying no
direction leaves every stored direction unchanged; and updatePayment
reads nothing but the payments map, so it never recomputes a direction
from the node id. -/
theorem c5_addPayment_direction_fixed (state : LightningState) (payload : TLightningPayment) :
    (objLookup (addPayment state payload).payments payload.invoice.payment_hash =
      some { invoice := payload.invoice
             type := some (if some payload.invoice.payee_pub_key = state.nodeId
               then EPaymentType.received else EPaymentType.sent) }) ∧
    ((if some payload.invoice.payee_pub_key = state.nodeId
        then EPaymentType.received else EPaymentType.sent) = EPaymentType.received ↔
      state.nodeId = some payload.invoice.payee_pub_key) ∧
    ((if some payload.invoice.payee_pub_key = state.nodeId
        then EPaymentType.received else EPaymentType.sent) = EPaymentType.sent ↔
      state.nodeId ≠ some payload.invoice.payee_pub_key) ∧
    (∀ q : TLightningPayment, q.type = none →
      ((updatePayment state q).payments.map fun kv => (kv.1, kv.2.type)) =
        state.payments.map fun kv => (kv.1, kv.2.type)) ∧
    (∀ s₂ : LightningState, ∀ q : TLightningPayment, state.payments = s₂.payments →
      (updatePayment state q).payments = (updatePayment s₂ q).payments) := by
  refine ⟨?_, ?_, ?_, ?_, ?_⟩
  · simpa [addPayment] using
      objLookup_objInsert state.payments payload.invoice.payment_hash _
  · by_cases h : some payload.invoice.payee_pub_key = state.nodeId
    · simp [h, eq_comm]
    · simp only [if_neg h]
      exact ⟨fun hc => EPaymentType.noConfusion hc, fun hc => absurd hc.symm h⟩
  · by_cases h : some payload.invoice.payee_pub_key = state.nodeId
    · simp [h, eq_comm]
    · simp only [if_neg h]
      exact ⟨fun _ hc => h hc.symm, fun _ => by trivial⟩
  · intro q hq
    simp only [updatePayment]
    induction state.payments with
    | nil => simp [updatePaymentValues]
    | cons kv rest ih =>
      obtain ⟨k, p⟩ := kv
      by_cases h : p.invoice.payment_hash = q.invoice.payment_hash
      · simp [updatePaymentValues, h, assignPayment, hq, jsSpreadOpt]
      · simp [updatePaymentValues, h]
        exact ih
  · intro s₂ q h
    simp [updatePayment, h]

/-- Witness for C5: an update payload carrying no direction leaves the
direction map of a concrete store untouched. -/
theorem c5_witness :
    ((updatePayment exState { invoice := exInvoiceA, type := none }).payments.map
        fun kv => (kv.1, kv.2.type)) =
      exState.payments.map fun kv => (kv.1, kv.2.type) :=
  (c5_addPayment_direction_fixed exState { invoice := exInvoiceA, type := none }).2.2.2.1
    { invoice := exInvoiceA, type := none } rfl

/-! Claim C4. -/

/-- C4: when loading the account material fails, setupLdk returns that
failure, never calls lm.start, triggers no sync pass and leaves the store
state (in particular the node identity) unchanged. -/
theorem c4_setupLdk_account_failure (deps : SetupDeps) (shouldRefreshLdk : Bool)
    (state : LightningState) (m : String) (h : deps.accountRes = .err m) :
    (setupLdk deps shouldRefreshLdk state).res = .err m ∧
    (setupLdk deps shouldRefreshLdk state).lmStartCalled = false ∧
    (setupLdk deps shouldRefreshLdk state).syncCalls = 0 ∧
    (setupLdk deps shouldRefreshLdk state).state.nodeId = state.nodeId := by
  simp [setupLdk, h]

/-- Witness for C4 at concrete failing setup dependencies. -/
theorem c4_witness :
    (setupLdk exFailingSetupDeps true exState0).res =
        .err "Unable to retrieve LDK seed from storage." ∧
      (setupLdk exFailingSetupDeps true exState0).lmStartCalled = false ∧
      (setupLdk exFailingSetupDeps true exState0).syncCalls = 0 ∧
      (setupLdk exFailingSetupDeps true exState0).state.nodeId = exState0.nodeId :=
  c4_setupLdk_account_failure exFailingSetupDeps true exState0
    "Unable to retrieve LDK seed from storage." rfl

/-! Claim C1. -/

/-- C1 is violated by the source: the loop exit tests `!syncRes` on a
Result object, which is never falsy, so no sync failure ever terminates
the loop or clears LDKIsStayingSynced. In every run the loop makes one
sync attempt per iteration and never exits; in particular, in the run
whose third sync attempt is the first failure, after 10 observed
iterations the loop has made 10 attempts (not 3), has not terminated, the
guard flag is still set, and a second invocation is still a no-op making
zero attempts. -/
theorem c1_keepLdkSynced_never_terminates :
    (∀ (results : Nat → Result String) (fuel i : Nat),
      keepSyncedLoop results fuel i = ⟨i + fuel, true, false⟩) ∧
    keepLdkSynced false failingSyncResults 10 = ⟨10, true, false⟩ ∧
    keepLdkSynced true failingSyncResults 10 = ⟨0, true, false⟩ := by
  refine ⟨?_, by decide, by decide⟩
  intro results fuel
  induction fuel with
  | zero => intro i; simp [keepSyncedLoop]
  | succ n ih =>
    intro i
    simp [keepSyncedLoop, Result.jsFalsy, ih]
    omega

/-! Claim C3. -/

/-- C3: a payment-claimed event whose hash matches a stored invoice makes
the handler add a payment record keyed by that hash, with the direction
inferred from the payee public key against the node id, and trigger one
sync; an event matching no stored invoice leaves the state unchanged and
triggers no sync. -/
theorem c3_handlePaymentSubscription_reconciles (state : LightningState) (h : String) :
    ((∃ inv ∈ state.invoices, inv.payment_hash = h) →
      ∃ inv ∈ state.invoices, inv.payment_hash = h ∧
        handlePaymentSubscription state h =
          (addPayment state { invoice := inv, type := none }, 1) ∧
        objLookup (handlePaymentSubscription state h).1.payments h =
          some { invoice := inv
                 type := some (if some inv.payee_pub_key = state.nodeId
                   then EPaymentType.received else EPaymentType.sent) }) ∧
    ((∀ inv ∈ state.invoices, inv.payment_hash ≠ h) →
      handlePaymentSubscription state h = (state, 0)) := by
  constructor
  · intro hex
    rcases hfil : state.invoices.filter (fun inv => inv.payment_hash = h) with _ | ⟨inv₀, tl⟩
    · exfalso
      obtain ⟨inv, hmem, hh⟩ := hex
      have : inv ∈ state.invoices.filter (fun inv => inv.payment_hash = h) :=
        List.mem_filter.mpr ⟨hmem, by simpa using hh⟩
      rw [hfil] at this
      exact (List.not_mem_nil inv) this
    · have hmem₀ : inv₀ ∈ state.invoices.filter (fun inv => inv.payment_hash = h) := by
        rw [hfil]; exact List.mem_cons_self inv₀ tl
      have h₀ := List.mem_filter.mp hmem₀
      have hhash : inv₀.payment_hash = h := by simpa using h₀.2
      have hrun : handlePaymentSubscription state h =
          (addPayment state { invoice := inv₀, type := none }, 1) := by
        simp [handlePaymentSubscription, getPendingInvoice, hfil]
      refine ⟨inv₀, h₀.1, hhash, hrun, ?_⟩
      rw [hrun]
      have := objLookup_objInsert state.payments inv₀.payment_hash
        { invoice := inv₀
          type := some (if some inv₀.payee_pub_key = state.nodeId
            then EPaymentType.received else EPaymentType.sent) }
      simpa [addPayment, hhash] using this
  · intro hnone
    have hfil : state.invoices.filter (fun inv => inv.payment_hash = h) = [] := by
      apply List.filter_eq_nil_iff.mpr
      intro inv hmem
      simpa using hnone inv hmem
    simp [handlePaymentSubscription, getPendingInvoice, hfil]

/-- Witness for C3 at the §8 scenario: node id node123, stored invoice
with hash abc and payee node123, event for abc. -/
theorem c3_witness :
    ∃ inv ∈ exState.invoices, inv.payment_hash = "abc" ∧
      handlePaymentSubscription exState "abc" =
        (addPayment exState { invoice := inv, type := none }, 1) ∧
      objLookup (handlePaymentSubscription exState "abc").1.payments "abc" =
        some { invoice := inv
               type := some (if some inv.payee_pub_key = exState.nodeId
                 then EPaymentType.received else EPaymentType.sent) } :=
  (c3_handlePaymentSubscription_reconciles exState "abc").1
    ⟨exInvoiceA, by decide, by decide⟩

/-! Claim C2. -/

/-- firstUnseen finds nothing exactly when every history entry is already
among the watch-list transaction ids. -/
theorem firstUnseen_eq_none_iff (ids : List String) (l : List THistoryEntry) :
    firstUnseen ids l = none ↔ ∀ e ∈ l, e.txid ∈ ids := by
  induction l with
  | nil => simp [firstUnseen]
  | cons e rest ih =>
    by_cases he : e.txid ∈ ids
    · simp [firstUnseen, he, ih]
    · simp [firstUnseen, he]

/-- A history entry found by firstUnseen belongs to the history and is not
among the watch-list transaction ids. -/
theorem firstUnseen_eq_some (ids : List String) (l : List THistoryEntry)
    (e : THistoryEntry) (h : firstUnseen ids l = some e) : e ∈ l ∧ e.txid ∉ ids := by
  induction l with
  | nil => simp [firstUnseen] at h
  | cons e₀ rest ih =>
    by_cases he : e₀.txid ∈ ids
    · simp only [firstUnseen, if_pos he] at h
      obtain ⟨hmem, hnot⟩ := ih h
      exact ⟨List.mem_cons_of_mem e₀ hmem, hnot⟩
    · simp only [firstUnseen, if_neg he, Option.some.injEq] at h
      subst h
      exact ⟨List.mem_cons_self _ _, he⟩

/-- A pass over watch transactions all of whose script histories are fully
known issues no confirmation and reports false. -/
theorem checkWatchTxsLoop_clean (ids : List String) (hist : String → List THistoryEntry)
    (txd : String → TTxData) (l : List TWatchTx) (checked : List String)
    (hclean : ∀ w ∈ l, ∀ e ∈ hist w.script_pubkey, e.txid ∈ ids) :
    checkWatchTxsLoop ids hist txd l checked = (false, []) := by
  induction l generalizing checked with
  | nil => simp [checkWatchTxsLoop]
  | cons w rest ih =>
    have hw : ∀ e ∈ hist w.script_pubkey, e.txid ∈ ids :=
      hclean w (List.mem_cons_self w rest)
    have hrest : ∀ w ∈ rest, ∀ e ∈ hist w.script_pubkey, e.txid ∈ ids :=
      fun w hmem => hclean w (List.mem_cons_of_mem _ hmem)
    by_cases hc : w.script_pubkey ∈ checked
    · simp only [checkWatchTxsLoop, if_pos hc]
      exact ih checked hrest
    · simp only [checkWatchTxsLoop, if_neg hc,
        (firstUnseen_eq_none_iff ids (hist w.script_pubkey)).mpr hw]
      exact ih (checked ++ [w.script_pubkey]) hrest

/-- A pass over watch transactions in which some script not yet checked
clean has an unseen history entry stops at the first such entry, issuing
exactly that one confirmation and reporting true. -/
theorem checkWatchTxsLoop_found (ids : List String) (hist : String → List THistoryEntry)
    (txd : String → TTxData) (l : List TWatchTx) (checked : List String)
    (hchecked : ∀ sp ∈ checked, ∀ e ∈ hist sp, e.txid ∈ ids)
    (hfound : ∃ w ∈ l, ∃ e ∈ hist w.script_pubkey, e.txid ∉ ids) :
    ∃ e : THistoryEntry, e.txid ∉ ids ∧ (∃ w ∈ l, e ∈ hist w.script_pubkey) ∧
      checkWatchTxsLoop ids hist txd l checked = (true, [mkConfirmedCall txd e.txid]) := by
  induction l generalizing checked with
  | nil => simp at hfound
  | cons w rest ih =>
    by_cases hc : w.script_pubkey ∈ checked
    · have hwclean : ∀ e ∈ hist w.script_pubkey, e.txid ∈ ids := hchecked _ hc
      have hfound' : ∃ w ∈ rest, ∃ e ∈ hist w.script_pubkey, e.txid ∉ ids := by
        obtain ⟨w', hw', e, he, hnot⟩ := hfound
        rcases List.mem_cons.mp hw' with rfl | hmem
        · exact absurd (hwclean e he) hnot
        · exact ⟨w', hmem, e, he, hnot⟩
      obtain ⟨e, hnot, ⟨w', hw', he⟩, hrun⟩ := ih checked hchecked hfound'
      refine ⟨e, hnot, ⟨w', List.mem_cons_of_mem w hw', he⟩, ?_⟩
      simpa [checkWatchTxsLoop, hc] using hrun
    · rcases hfu : firstUnseen ids (hist w.script_pubkey) with _ | e
      · have hwclean := (firstUnseen_eq_none_iff ids (hist w.script_pubkey)).mp hfu
        have hfound' : ∃ w ∈ rest, ∃ e ∈ hist w.script_pubkey, e.txid ∉ ids := by
          obtain ⟨w', hw', e, he, hnot⟩ := hfound
          rcases List.mem_cons.mp hw' with rfl | hmem
          · exact absurd (hwclean e he) hnot
          · exact ⟨w', hmem, e, he, hnot⟩
        have hchecked' : ∀ sp ∈ checked ++ [w.script_pubkey], ∀ e ∈ hist sp, e.txid ∈ ids := by
          intro sp hsp
          rcases List.mem_append.mp hsp with hsp | hsp
          · exact hchecked sp hsp
          · rcases List.mem_singleton.mp hsp with rfl
            exact hwclean
        obtain ⟨e, hnot, ⟨w', hw', he⟩, hrun⟩ := ih (checked ++ [w.script_pubkey]) hchecked' hfound'
        refine ⟨e, hnot, ⟨w', List.mem_cons_of_mem w hw', he⟩, ?_⟩
        simpa [checkWatchTxsLoop, hc, hfu] using hrun
      · obtain ⟨he, hnot⟩ := firstUnseen_eq_some ids (hist w.script_pubkey) e hfu
        refine ⟨e, hnot, ⟨w, List.mem_cons_self w rest, he⟩, ?_⟩
        simp [checkWatchTxsLoop, hc, hfu]

/-- C2: when some watched script history contains a transaction id outside
the watch-list transaction ids, checkWatchTxs issues exactly one
setTxConfirmed call (for such an unseen transaction) and returns true;
when no script history does, it issues no call and returns false. -/
theorem c2_checkWatchTxs_first_hit (watchTxs : List TWatchTx)
    (hist : String → List THistoryEntry) (txd : String → TTxData) :
    ((∃ w ∈ watchTxs, ∃ e ∈ hist w.script_pubkey,
        e.txid ∉ watchTxs.map (fun tx => tx.txid)) →
      ∃ e : THistoryEntry, e.txid ∉ watchTxs.map (fun tx => tx.txid) ∧
        (∃ w ∈ watchTxs, e ∈ hist w.script_pubkey) ∧
        checkWatchTxs watchTxs hist txd = (true, [mkConfirmedCall txd e.txid])) ∧
    ((∀ w ∈ watchTxs, ∀ e ∈ hist w.script_pubkey,
        e.txid ∈ watchTxs.map (fun tx => tx.txid)) →
      checkWatchTxs watchTxs hist txd = (false, [])) := by
  constructor
  · intro hfound
    exact checkWatchTxsLoop_found _ hist txd watchTxs [] (by simp) hfound
  · intro hclean
    exact checkWatchTxsLoop_clean _ hist txd watchTxs [] hclean

/-- Witness for C2 at the §8 scenario: two scripts, only the second has an
unseen confirmed transaction. -/
theorem c2_witness :
    ∃ e : THistoryEntry, e.txid ∉ exWatchTxs.map (fun tx => tx.txid) ∧
      (∃ w ∈ exWatchTxs, e ∈ exHist w.script_pubkey) ∧
      checkWatchTxs exWatchTxs exHist exTxd = (true, [mkConfirmedCall exTxd e.txid]) :=
  (c2_checkWatchTxs_first_hit exWatchTxs exHist exTxd).1
    ⟨{ script_pubkey := "spk2", txid := "t2" }, by decide,
      { txid := "t9", height := 7 }, by decide, by decide⟩

/-! Claim C7. -/

/-- The merge step of updateContact in closed form: payload keys win over
the existing scalar fields, identifier lists are appended. -/
theorem mergeContact_eq (c u : TContact) :
    mergeContact c u =
      { id := u.id
        «alias» := u.«alias»
        date_added := jsSpreadOpt u.date_added c.date_added
        identifiers := some (c.identifiers.getD [] ++ u.identifiers.getD [])
        items := jsSpreadOpt u.items c.items } := by
  cases hu : u.identifiers <;> simp [mergeContact, hu]

/-- C7 fails as stated at a contact whose id is the empty string: the
source guard `contactId && updatedContact` treats the empty-string id as
falsy, so the whole update is a no-op and the identifier list stays [A]
instead of becoming [A, B]. -/
theorem c7_counterexample_empty_id :
    updateContact [emptyIdContact] "" emptyIdUpdate = [emptyIdContact] ∧
    emptyIdContact.identifiers = some [identA] ∧
    ¬ ∃ c ∈ updateContact [emptyIdContact] "" emptyIdUpdate,
        c.identifiers = some [identA, identB] := by
  refine ⟨rfl, rfl, ?_⟩
  decide

/-- C7 amended: for every contact whose id is a nonempty string,
updateContact appends the payload identifiers to the existing ones (never
replacing them), overwrites the scalar fields with the payload keys, and
leaves contacts with other ids unchanged. -/
theorem c7_updateContact_append_merge (contacts : List TContact) (contactId : String)
    (updatedContact : TContact) (hne : contactId ≠ "") :
    List.Forall₂ (fun c c' =>
      (c.id = contactId →
        c' = { id := updatedContact.id
               «alias» := updatedContact.«alias»
               date_added := jsSpreadOpt updatedContact.date_added c.date_added
               identifiers :=
                 some (c.identifiers.getD [] ++ updatedContact.identifiers.getD [])
               items := jsSpreadOpt updatedContact.items c.items }) ∧
      (c.id ≠ contactId → c' = c))
      contacts (updateContact contacts contactId updatedContact) := by
  simp only [updateContact, if_neg hne]
  induction contacts with
  | nil => exact List.Forall₂.nil
  | cons c cs ih =>
    simp only [List.map_cons]
    refine List.Forall₂.cons ?_ ih
    by_cases hc : c.id = contactId
    · exact ⟨fun _ => by simp [hc, mergeContact_eq], fun h => absurd hc h⟩
    · exact ⟨fun h => absurd h hc, fun _ => by simp [hc]⟩

/-- Witness for C7: contact c1 with identifiers [A], update carrying [B]. -/
theorem c7_witness :
    List.Forall₂ (fun c c' =>
      (c.id = "c1" →
        c' = { id := contactCAUpdate.id
               «alias» := contactCAUpdate.«alias»
               date_added := jsSpreadOpt contactCAUpdate.date_added c.date_added
               identifiers :=
                 some (c.identifiers.getD [] ++ contactCAUpdate.identifiers.getD [])
               items := jsSpreadOpt contactCAUpdate.items c.items }) ∧
      (c.id ≠ "c1" → c' = c))
      [contactCA] (updateContact [contactCA] "c1" contactCAUpdate) :=
  c7_updateContact_append_merge [contactCA] "c1" contactCAUpdate (by decide)

/-! Claim C8. -/

/-- C8 fails as stated at a payload whose open-channel id list itself
repeats an id: the dedup filter only checks against the ids already
tracked in the state, so both copies are appended and the resulting
open-channel id list has a duplicate. -/
theorem c8_counterexample_duplicate_payload :
    (updateChannels exState0 dupChannelsPayload).openChannelIds = ["chanA", "chanA"] ∧
    ¬ (updateChannels exState0 dupChannelsPayload).openChannelIds.Nodup := by
  refine ⟨rfl, ?_⟩
  decide

/-- C8 amended: updateChannels is idempotent on the open-channel id list;
the payload ids are appended, in order, exactly when not already tracked
in the pre-state; the result is duplicate-free whenever the tracked list
and the payload list are each duplicate-free; and channel records are
shallow-merged by id with the payload winning. -/
theorem c8_updateChannels_idempotent_dedup (state : LightningState)
    (payload : ChannelsPayload) :
    ((updateChannels (updateChannels state payload) payload).openChannelIds =
      (updateChannels state payload).openChannelIds) ∧
    ((updateChannels state payload).openChannelIds =
      state.openChannelIds ++
        (payload.openChannelIds.getD []).filter
          (fun cid => !(state.openChannelIds.contains cid))) ∧
    (state.openChannelIds.Nodup → (payload.openChannelIds.getD []).Nodup →
      (updateChannels state payload).openChannelIds.Nodup) ∧
    (∀ k, (updateChannels state payload).channels k =
      match (payload.channels.getD (fun _ => none)) k with
      | some v => some v
      | none => state.channels k) := by
  refine ⟨?_, rfl, ?_, fun k => rfl⟩
  · simp only [updateChannels]
    have h : (payload.openChannelIds.getD []).filter
        (fun cid =>
          !((state.openChannelIds ++
              (payload.openChannelIds.getD []).filter
                (fun c => !(state.openChannelIds.contains c))).contains cid)) = [] := by
      apply List.filter_eq_nil_iff.mpr
      intro x hx
      simp only [Bool.not_eq_true', Bool.not_eq_false]
      apply List.elem_iff.mpr
      by_cases hxl : x ∈ state.openChannelIds
      · exact List.mem_append_left _ hxl
      · refine List.mem_append_right _ (List.mem_filter.mpr ⟨hx, ?_⟩)
        simp only [Bool.not_eq_true']
        exact Bool.not_eq_true _ ▸ (by simpa using hxl)
    simp only [h, List.append_nil]
  · intro hs hp
    simp only [updateChannels]
    refine List.Nodup.append hs (List.Nodup.filter _ hp) ?_
    intro x hxl hxf
    have := (List.mem_filter.mp hxf).2
    simp only [Bool.not_eq_true'] at this
    exact (by simpa using this : x ∉ state.openChannelIds) hxl

/-- Witness for C8: a duplicate-free payload on the empty store yields a
duplicate-free open-channel id list. -/
theorem c8_witness :
    (updateChannels exState0 okChannelsPayload).openChannelIds.Nodup :=
  (c8_updateChannels_idempotent_dedup exState0 okChannelsPayload).2.2.1
    (by decide) (by decide)

/-! Claim C10. -/

/-- C10 is violated by the source: after deleteContactAddress on contact
c1, contact c2 still holds the identifier with the deleted id addr1 in its
identifiers list — the second pass of the action computes the filtered
list for every contact but stores it under the stray `items` key instead
of `identifiers`. The theorem evaluates the action at the failing input
and exhibits the retained identifier. -/
theorem c10_deleteContactAddress_other_contacts_keep_identifier :
    ((deleteContactAddress [contactWithAddr1, otherContactWithAddr1] "c1" "addr1").map
        (fun c => (c.id, c.identifiers, c.items))) =
      [("c1", some [], some []),
       ("c2", some [{ id := "addr1", label := "ln", address := "y" }], some [])] ∧
    ∃ c ∈ deleteContactAddress [contactWithAddr1, otherContactWithAddr1] "c1" "addr1",
      c.id ≠ "c1" ∧ ∃ ident ∈ c.identifiers.getD [], ident.id = "addr1" := by
  constructor
  · rfl
  · decide

/-! Claim C9. -/

/-- Merging a contact update appends the identifier ids. -/
theorem identifierIds_mergeContact (c u : TContact) :
    identifierIds (mergeContact c u) = identifierIds c ++ identifierIds u := by
  simp [identifierIds, mergeContact_eq]

/-- deleteContact only removes an element. -/
theorem deleteContact_mem (contacts : List TContact) (payload : String) (x : TContact)
    (h : x ∈ deleteContact contacts payload) : x ∈ contacts := by
  induction contacts with
  | nil => simp [deleteContact] at h
  | cons c rest ih =>
    by_cases hc : c.id = payload
    · simp only [deleteContact, if_pos hc] at h
      exact List.mem_cons_of_mem c h
    · simp only [deleteContact, if_neg hc, List.mem_cons] at h
      rcases h with rfl | h
      · exact List.mem_cons_self _ _
      · exact List.mem_cons_of_mem c (ih h)

/-- C9 fails as stated: from the initial state, addContact of a contact
holding identifier A followed by updateContact re-sending identifier A
reaches a state whose contact holds two identifiers with the same id —
the transitions themselves never enforce uniqueness. -/
theorem c9_counterexample_duplicate_identifier :
    ¬ contactInv (applyContactOps dupIdentifierOps) := by
  decide

/-- C9 amended: the invariant holds in every state reachable through
transitions with well-formed payloads, that is, addContact payloads whose
identifier ids are pairwise distinct and updateContact payloads whose
identifier ids are pairwise distinct and fresh for the updated contact
(deletions are unconstrained). -/
theorem c9_contact_identifier_ids_unique (contacts : List TContact)
    (h : ReachableWF contacts) : contactInv contacts := by
  induction h with
  | init => intro c hc; simp at hc
  | step hr hwf ih =>
    rename_i cs op
    cases op with
    | add payload =>
      intro c hc
      simp only [applyContactOp, addContact] at hc
      rcases List.mem_append.mp hc with hmem | hmem
      · exact ih c hmem
      · rcases List.mem_singleton.mp hmem with rfl
        exact hwf
    | update contactId updatedContact =>
      intro c hc
      simp only [applyContactOp, updateContact] at hc
      by_cases hid : contactId = ""
      · rw [if_pos hid] at hc
        exact ih c hc
      · rw [if_neg hid] at hc
        obtain ⟨c₀, hc₀, rfl⟩ := List.mem_map.mp hc
        by_cases hcid : c₀.id = contactId
        · rw [if_pos hcid, identifierIds_mergeContact]
          exact List.Nodup.append (ih c₀ hc₀) hwf.1
            (fun a ha => hwf.2 c₀ hc₀ hcid a ha)
        · rw [if_neg hcid]
          exact ih c₀ hc₀
    | delete payload =>
      intro c hc
      simp only [applyContactOp] at hc
      exact ih c (deleteContact_mem cs payload c hc)
    | deleteAddress contactId addressId =>
      intro c hc
      simp only [applyContactOp, deleteContactAddress] at hc
      by_cases hall : cs.all (fun contact => contact.identifiers.isSome) = true
      · rw [if_pos hall] at hc
        simp only [deleteAddressPass2, deleteAddressPass1, List.map_map,
          List.mem_map, Function.comp] at hc
        obtain ⟨c₀, hc₀, rfl⟩ := hc
        by_cases hcid : c₀.id = contactId
        · rw [if_pos hcid]
          simp only [identifierIds, Option.getD_some]
          refine List.Sublist.nodup (List.Sublist.map _ (List.filter_sublist _)) ?_
          exact ih c₀ hc₀
        · rw [if_neg hcid]
          simpa [identifierIds] using ih c₀ hc₀
      · rw [if_neg hall] at hc
        exact ih c hc

/-- Witness for C9: one well-formed addContact from the initial state
preserves the invariant. -/
theorem c9_witness :
    contactInv (applyContactOp [] (ContactOp.add contactCA)) :=
  c9_contact_identifier_ids_unique _
    (ReachableWF.step ReachableWF.init (by simp only [contactOpWF]; decide))

end EttaWallet
